/-
  Verification of the execution-control and state-marshaling bridge of
  ckb-vm-debug-utils (a GDB remote stub for the CKB RISC-V virtual machine).

  The repository holds two handler implementations with the same callback
  surface:
    * src/gdbserver.rs — `GdbHandler`, the library handler (over `AsmMachine`);
    * src/main.rs      — `VMHandler`, the standalone binary's handler (over
      `DefaultMachine`).
  Their register/memory/breakpoint code is identical; their `vcont` dispatch
  differs (the binary's loops do not consult the VM running flag, and its
  single-step is unguarded).  Both are embedded below.

  The VM itself (ckb-vm) is an external collaborator: its observable state is
  embedded as the `Machine` record (program counter, general registers,
  running flag, exit code) and its single-step primitive — which fetches,
  decodes and executes exactly one instruction, irrespective of the running
  flag — is an abstract parameter `step : Machine → Machine`.  The unbounded
  Rust `while` loops are embedded with explicit fuel; `none` marks the runs
  the Rust code does not complete (non-termination within fuel, or the
  out-of-bounds index panic of `request[0]`).
-/
import Mathlib

set_option maxHeartbeats 1000000

/-- u64 modulus. -/
def U64MOD : Nat := 2 ^ 64

/-- Observable state of the external ckb-vm machine, as consumed by the
handlers: program counter, general-purpose register file (32 registers on
RISC-V, `RISCV_GENERAL_REGISTER_NUMBER`), the running flag, and the exit
code (an `i8` in ckb-vm, read by the handlers via `exit_code() as u8`). -/
structure Machine where
  pc : Nat
  regs : List Nat
  running : Bool
  exitCode : Int
deriving DecidableEq, Repr

/-- `RISCV_GENERAL_REGISTER_NUMBER` from ckb-vm. -/
def RISCV_GENERAL_REGISTER_NUMBER : Nat := 32

/-- `gdb_remote_protocol::Breakpoint`: the descriptor carried by the Z/z
packets of the remote protocol, with an address and a kind field.  The crate
derives structural equality over both fields. -/
structure Breakpoint where
  addr : Nat
  kind : Nat
deriving DecidableEq, Repr

/-- `gdb_remote_protocol::Error::Error(u8)`: the coded error returned to the
protocol layer. -/
inductive GdbError where
  | err (code : Nat)
deriving DecidableEq, Repr

/-- `gdb_remote_protocol::StopReason` (the variants this bridge produces). -/
inductive StopReason where
  | signal (code : Nat)
  | exited (pid : Nat) (code : Nat)
deriving DecidableEq, Repr

/-- `gdb_remote_protocol::VCont` continuation actions. -/
inductive VContAct where
  | cont
  | contWithSig (sig : Nat)
  | step
  | stepWithSig (sig : Nat)
  | stop
  | rangeStep (start stop : Nat)
deriving DecidableEq, Repr

/-- Little-endian byte list of `n` bytes of a natural number
(`byteorder::LittleEndian::write_u64` writes `leBytes 8 v`). -/
def leBytes : Nat → Nat → List Nat
  | 0, _ => []
  | n + 1, v => v % 256 :: leBytes n (v / 256)

/-- Little-endian read of a byte list
(`byteorder::LittleEndian::read_u64` over an 8-byte buffer). -/
def leRead : List Nat → Nat
  | [] => 0
  | b :: bs => b + 256 * leRead bs

/-- `format_register_value` (gdbserver.rs:13-17, main.rs:21-25): serialize a
u64 register value as 8 little-endian bytes. -/
def formatRegisterValue (v : Nat) : List Nat := leBytes 8 v

/-- `GdbHandler::at_breakpoint` / `VMHandler::at_breakpoint`
(gdbserver.rs:25-28, main.rs:34-37), factored over an arbitrary address:
`breakpoints.iter().any(|b| b.addr == pc)`. -/
def containsAddr (bps : List Breakpoint) (a : Nat) : Bool :=
  bps.any (fun b => b.addr == a)

/-- `at_breakpoint` applied to the machine's current program counter. -/
def atBreakpoint (bps : List Breakpoint) (m : Machine) : Bool :=
  containsAddr bps m.pc

/-- `insert_software_breakpoint` (gdbserver.rs:206-209, main.rs:179-182):
`breakpoints.push(breakpoint)`, unconditional append. -/
def insertSoftwareBreakpoint (bps : List Breakpoint) (b : Breakpoint) :
    List Breakpoint :=
  bps ++ [b]

/-- `remove_software_breakpoint` (gdbserver.rs:211-214, main.rs:184-187):
`breakpoints.retain(|x| x != &breakpoint)` — retains the entries that differ
from the argument under the crate's derived (full-record) equality. -/
def removeSoftwareBreakpoint (bps : List Breakpoint) (b : Breakpoint) :
    List Breakpoint :=
  bps.filter (fun x => x != b)

/-- `read_register` (gdbserver.rs:60-71, main.rs:61-72): an index below 32
reads that general register, index 32 reads the program counter, larger
indices are rejected with `Error(1)`.  The Rust `registers()[register]` index
is in bounds whenever the guard holds and the VM invariant
`regs.length = 32` does, which `getD` makes total. -/
def readRegister (m : Machine) (register : Nat) :
    Except GdbError (List Nat) :=
  if register < RISCV_GENERAL_REGISTER_NUMBER then
    .ok (formatRegisterValue (m.regs.getD register 0))
  else if register = RISCV_GENERAL_REGISTER_NUMBER then
    .ok (formatRegisterValue m.pc)
  else
    .error (GdbError.err 1)

/-- `write_register` (gdbserver.rs:73-95, main.rs:74-92): payloads beyond 8
bytes are rejected with `Error(2)`; otherwise the payload is copied into a
zeroed 8-byte buffer (so short payloads zero-extend) and decoded as
little-endian u64; index below 32 sets that register, index 32 sets the
program counter (`update_pc` + `commit_pc` in gdbserver.rs, `set_pc` in
main.rs — both leave the committed pc equal to the value), larger indices
are rejected with `Error(2)`. -/
def writeRegister (m : Machine) (register : Nat) (contents : List Nat) :
    Except GdbError Machine :=
  if contents.length > 8 then
    .error (GdbError.err 2)
  else
    let value := leRead (contents ++ List.replicate (8 - contents.length) 0)
    if register < RISCV_GENERAL_REGISTER_NUMBER then
      .ok { m with regs := m.regs.set register value }
    else if register = RISCV_GENERAL_REGISTER_NUMBER then
      .ok { m with pc := value }
    else
      .error (GdbError.err 2)

/-- One byte-load step of `read_memory`'s loop body: `load8` mapped to
`Error(3)` on failure, with the loaded u64 truncated by `as u8`. -/
def loadRange (load8 : Nat → Except Unit Nat) :
    List Nat → Except GdbError (List Nat)
  | [] => .ok []
  | a :: rest =>
    match load8 a with
    | .error _ => .error (GdbError.err 3)
    | .ok v =>
      match loadRange load8 rest with
      | .error e => .error e
      | .ok vs => .ok (v % 256 :: vs)

/-- `read_memory` (gdbserver.rs:97-113, main.rs:94-109): iterate over
`region.address..(region.address + region.length)` loading one byte at a
time.  The end bound is computed with u64 (wrapping) addition, so the loop
runs over `address..((address + length) mod 2^64)` — an empty range when the
sum wraps.  The VM's byte load is the abstract parameter `load8`. -/
def readMemory (load8 : Nat → Except Unit Nat) (address length : Nat) :
    Except GdbError (List Nat) :=
  loadRange load8 (List.range' address ((address + length) % U64MOD - address))

/-- `write_memory` (gdbserver.rs:115-126, main.rs:111-122): a single bulk
store, failure mapped to `Error(4)`.  The VM's bulk store is the abstract
parameter `storeBytes`. -/
def writeMemory {mu : Type} (storeBytes : mu → Nat → List Nat → Except Unit mu)
    (mem : mu) (address : Nat) (bytes : List Nat) : Except GdbError mu :=
  match storeBytes mem address bytes with
  | .error _ => .error (GdbError.err 4)
  | .ok mem' => .ok mem'

/-- Stop-reason computation at the tail of `vcont` (gdbserver.rs:195-203,
main.rs:168-176): `Signal(5)` (SIGTRAP) while running, otherwise
`Exited(0, exit_code as u8)`. -/
def stopReason (m : Machine) : StopReason :=
  if m.running then StopReason.signal 5
  else StopReason.exited 0 ((m.exitCode % 256).toNat)

/-- Fuel-indexed embedding of `while cond { machine.step() }`: checks the
condition on the current state, steps while it holds, and returns the first
state falsifying it; `none` when the loop does not finish within `fuel`. -/
def whileStep (cond : Machine → Bool) (step : Machine → Machine) :
    Nat → Machine → Option Machine
  | 0, _ => none
  | fuel + 1, m => if cond m then whileStep cond step fuel (step m) else some m

/-- Loop condition of `GdbHandler`'s `VCont::Continue` arm
(gdbserver.rs:155): `!at_breakpoint() && machine.running()`. -/
def contCondGdb (bps : List Breakpoint) (m : Machine) : Bool :=
  !(atBreakpoint bps m) && m.running

/-- Loop condition of `VMHandler`'s `VCont::Continue` arm (main.rs:147):
`!at_breakpoint()` — the binary's loop does not consult the running flag. -/
def contCondMain (bps : List Breakpoint) (m : Machine) : Bool :=
  !(atBreakpoint bps m)

/-- Loop condition of `GdbHandler`'s `VCont::RangeStep` arm
(gdbserver.rs:178-181):
`pc >= start && pc < end && !at_breakpoint() && machine.running()`. -/
def rangeCondGdb (bps : List Breakpoint) (start stop : Nat) (m : Machine) :
    Bool :=
  decide (start ≤ m.pc) && decide (m.pc < stop) &&
    !(atBreakpoint bps m) && m.running

/-- Loop condition of `VMHandler`'s `VCont::RangeStep` arm
(main.rs:156-158): `pc >= start && pc < end && !at_breakpoint()` — again
without the running flag. -/
def rangeCondMain (bps : List Breakpoint) (start stop : Nat) (m : Machine) :
    Bool :=
  decide (start ≤ m.pc) && decide (m.pc < stop) && !(atBreakpoint bps m)

/-- `GdbHandler::vcont` (gdbserver.rs:145-204).  `request[0]` is embedded as
a `match` on the list: the empty request, on which the Rust indexing panics,
yields `none`.  `Continue` and `RangeStep` step once unconditionally and
then run their loop; `Step` steps only when the VM is running
(gdbserver.rs:163-171); the remaining actions are rejected with `Error(5)`
before any machine access.  Successful arms finish with the stop-reason
computation. -/
def vcontGdb (step : Machine → Machine) (bps : List Breakpoint) (fuel : Nat)
    (request : List (VContAct × Option Nat)) (m : Machine) :
    Option (Machine × Except GdbError StopReason) :=
  match request with
  | [] => none
  | (a, _) :: _ =>
    match a with
    | .cont =>
      (whileStep (contCondGdb bps) step fuel (step m)).map
        (fun m' => (m', .ok (stopReason m')))
    | .step =>
      let m' := if m.running then step m else m
      some (m', .ok (stopReason m'))
    | .rangeStep lo hi =>
      (whileStep (rangeCondGdb bps lo hi) step fuel (step m)).map
        (fun m' => (m', .ok (stopReason m')))
    | _ => some (m, .error (GdbError.err 5))

/-- `VMHandler::vcont` (main.rs:141-177).  Same dispatch shape as
`vcontGdb`, but the `Continue` and `RangeStep` loop conditions do not test
the running flag, and `Step` (main.rs:151-153) calls the VM's single-step
primitive unconditionally. -/
def vcontMain (step : Machine → Machine) (bps : List Breakpoint) (fuel : Nat)
    (request : List (VContAct × Option Nat)) (m : Machine) :
    Option (Machine × Except GdbError StopReason) :=
  match request with
  | [] => none
  | (a, _) :: _ =>
    match a with
    | .cont =>
      (whileStep (contCondMain bps) step fuel (step m)).map
        (fun m' => (m', .ok (stopReason m')))
    | .step =>
      let m' := step m
      some (m', .ok (stopReason m'))
    | .rangeStep lo hi =>
      (whileStep (rangeCondMain bps lo hi) step fuel (step m)).map
        (fun m' => (m', .ok (stopReason m')))
    | _ => some (m, .error (GdbError.err 5))

/-- Low 32 bits of a natural number read as a two's-complement i32
(ckb-vm `Register::to_i32`, and Rust `as i32` casts of 32-bit-truncated
values). -/
def i32ofBits (n : Nat) : Int :=
  if n % 2 ^ 32 < 2 ^ 31 then ((n % 2 ^ 32 : Nat) : Int)
  else ((n % 2 ^ 32 : Nat) : Int) - 2 ^ 32

/-- Two's-complement u64 bit pattern of a signed integer (the bytes an i64
field occupies in memory). -/
def u64bits (x : Int) : Nat := (x % (2 ^ 64 : Int)).toNat

/-- Two's-complement u32 bit pattern of a signed integer. -/
def u32bits (x : Int) : Nat := (x % (2 ^ 32 : Int)).toNat

/-- Host `libc::stat` result as read through `nix::sys::stat::fstat`
(x86_64 linux field types: u64 device/inode/nlink/rdev, u32 mode/uid/gid,
i64 size/blksize/blocks/timestamps). -/
structure HostStat where
  dev : Nat
  ino : Nat
  mode : Nat
  nlink : Nat
  uid : Nat
  gid : Nat
  rdev : Nat
  size : Int
  blksize : Int
  blocks : Int
  atime : Int
  atimeNsec : Int
  mtime : Int
  mtimeNsec : Int
  ctime : Int
  ctimeNsec : Int
deriving DecidableEq, Repr

/-- `AbiStat` (stdio.rs:9-32): the guest-ABI file-status record, `repr(C)`.
Field names `pad1`, `pad2`, `unused4`, `unused5` stand for the Rust
`__pad1`, `__pad2`, `__unused4`, `__unused5`. -/
structure AbiStat where
  dev : Nat
  ino : Nat
  mode : Nat
  nlink : Int
  uid : Nat
  gid : Nat
  rdev : Nat
  pad1 : Nat
  size : Int
  blksize : Int
  pad2 : Int
  blocks : Int
  atime : Int
  atimeNsec : Int
  mtime : Int
  mtimeNsec : Int
  ctime : Int
  ctimeNsec : Int
  unused4 : Int
  unused5 : Int
deriving DecidableEq, Repr

/-- The field-by-field population of `AbiStat` in `Stdio::fstat`
(stdio.rs:46-62), starting from `AbiStat::default()` (all fields zero, so
the reserved/padding fields stay zero).  The Rust casts are
`st_nlink as i32` and `st_blksize as i32`. -/
def mkAbiStat (s : HostStat) : AbiStat where
  dev := s.dev
  ino := s.ino
  mode := s.mode
  nlink := i32ofBits s.nlink
  uid := s.uid
  gid := s.gid
  rdev := s.rdev
  pad1 := 0
  size := s.size
  blksize := i32ofBits (u64bits s.blksize)
  pad2 := 0
  blocks := s.blocks
  atime := s.atime
  atimeNsec := s.atimeNsec
  mtime := s.mtime
  mtimeNsec := s.mtimeNsec
  ctime := s.ctime
  ctimeNsec := s.ctimeNsec
  unused4 := 0
  unused5 := 0

/-- Byte serialization of `AbiStat` (stdio.rs:63-64):
`from_raw_parts(&abi_stat as *const AbiStat as *const u8, size_of::<AbiStat>())`
on a little-endian host.  Under `repr(C)` every field of the declared record
sits at its naturally aligned offset with no implicit padding (offsets
0,8,16,20,24,28,32,40,48,56,60,64,72,80,88,96,104,112,120,124; total 128),
so the bytes are the little-endian encodings of the fields in declared
order. -/
def abiStatBytes (a : AbiStat) : List Nat :=
  leBytes 8 a.dev ++ leBytes 8 a.ino ++ leBytes 4 a.mode ++
    leBytes 4 (u32bits a.nlink) ++ leBytes 4 a.uid ++ leBytes 4 a.gid ++
    leBytes 8 a.rdev ++ leBytes 8 a.pad1 ++ leBytes 8 (u64bits a.size) ++
    leBytes 4 (u32bits a.blksize) ++ leBytes 4 (u32bits a.pad2) ++
    leBytes 8 (u64bits a.blocks) ++ leBytes 8 (u64bits a.atime) ++
    leBytes 8 (u64bits a.atimeNsec) ++ leBytes 8 (u64bits a.mtime) ++
    leBytes 8 (u64bits a.mtimeNsec) ++ leBytes 8 (u64bits a.ctime) ++
    leBytes 8 (u64bits a.ctimeNsec) ++ leBytes 4 (u32bits a.unused4) ++
    leBytes 4 (u32bits a.unused5)

/-- Machine state as seen by the syscall bridge (`SupportMachine`): the
register file and the guest memory, the latter abstract. -/
structure SysMachine (mu : Type) where
  regs : List Nat
  mem : mu
deriving DecidableEq, Repr

/-- RISC-V argument register A0 (index in the register file). -/
def A0 : Nat := 10

/-- RISC-V argument register A1. -/
def A1 : Nat := 11

/-- RISC-V syscall-number register A7. -/
def A7 : Nat := 17

/-- `Stdio::fstat` (stdio.rs:37-69), parametric in the host `fstat` call and
the VM's `store_bytes` primitive (with its error type `eps`).  On host
failure the return register A0 is set to `Mac::REG::from_i8(-1)`, i.e. the
all-ones u64, nothing is stored, and the call returns `Ok`.  On success the
serialized `AbiStat` is stored at the address in A1; a store failure
propagates via `?`; otherwise A0 is set to zero. -/
def fstatSys {mu eps : Type} (hostFstat : Int → Except Nat HostStat)
    (storeBytes : mu → Nat → List Nat → Except eps mu)
    (m : SysMachine mu) : Except eps (SysMachine mu) :=
  match hostFstat (i32ofBits (m.regs.getD A0 0)) with
  | .error _ => .ok { m with regs := m.regs.set A0 (2 ^ 64 - 1) }
  | .ok stat =>
    let b := abiStatBytes (mkAbiStat stat)
    let addr := m.regs.getD A1 0
    match storeBytes m.mem addr b with
    | .error e => .error e
    | .ok mem' => .ok { regs := m.regs.set A0 0, mem := mem' }

/-- `Syscalls::ecall` for `Stdio` (stdio.rs:77-83): syscall number 80
dispatches to `fstat` and reports the call handled; every other number
returns `Ok(false)` untouched. -/
def ecallSys {mu eps : Type} (hostFstat : Int → Except Nat HostStat)
    (storeBytes : mu → Nat → List Nat → Except eps mu)
    (m : SysMachine mu) : Except eps (Bool × SysMachine mu) :=
  if m.regs.getD A7 0 = 80 then
    match fstatSys hostFstat storeBytes m with
    | .error e => .error e
    | .ok m' => .ok (true, m')
  else .ok (false, m)

/-! ### Helper lemmas -/

/-- A terminating run of the embedded `while` loop returns the first iterate
falsifying the condition: the result is `step^[k] m` for the least `k` at
which the condition fails, every earlier iterate satisfying it. -/
theorem whileStep_eq_some (cond : Machine → Bool) (step : Machine → Machine) :
    ∀ (fuel : Nat) (m m' : Machine), whileStep cond step fuel m = some m' →
    ∃ k, k < fuel ∧ m' = step^[k] m ∧
      (∀ j, j < k → cond (step^[j] m) = true) ∧ cond m' = false := by
  intro fuel
  induction fuel with
  | zero => intro m m' h; simp [whileStep] at h
  | succ f ih =>
    intro m m' h
    by_cases hc : cond m = true
    · rw [whileStep, if_pos hc] at h
      obtain ⟨k, hk, hm', hall, hstop⟩ := ih (step m) m' h
      refine ⟨k + 1, by omega, ?_, ?_, hstop⟩
      · rw [Function.iterate_succ_apply]; exact hm'
      · intro j hj
        cases j with
        | zero => simpa using hc
        | succ j' =>
          rw [Function.iterate_succ_apply]
          exact hall j' (by omega)
    · have hc' : cond m = false := by simpa using hc
      rw [whileStep, if_neg (by simp [hc'])] at h
      obtain rfl : m' = m := by injection h with h'; exact h'.symm
      exact ⟨0, by omega, rfl, by omega, hc'⟩

/-- A machine step used in concrete counterexamples and witnesses: advance
the program counter by one and leave the machine halted (as a step of ckb-vm
may: the single-step primitive executes an instruction regardless of the
running flag, and an `exit` ecall clears the flag). -/
def bumpHalt (m : Machine) : Machine := { m with pc := m.pc + 1, running := false }

/-- Iterating `bumpHalt` advances the program counter linearly. -/
theorem bumpHalt_iterate_pc : ∀ (k : Nat) (m : Machine),
    (bumpHalt^[k] m).pc = m.pc + k := by
  intro k
  induction k with
  | zero => intro m; rfl
  | succ k' ih =>
    intro m
    rw [Function.iterate_succ_apply]
    rw [ih (bumpHalt m)]
    simp [bumpHalt]
    omega

/-! ### C3: single step -/

/-- C3 (amended): the library handler's single-step (gdbserver.rs:163-171)
executes exactly one instruction when the running flag is true and leaves
the machine untouched when it is false, reporting the stop reason of the
resulting state; the binary handler's single-step (main.rs:151-153) invokes
the VM step primitive unconditionally, also when the flag is false. -/
theorem single_step_spec (step : Machine → Machine) (bps : List Breakpoint)
    (fuel : Nat) (m : Machine) :
    (m.running = true →
      vcontGdb step bps fuel [(VContAct.step, none)] m =
        some (step m, .ok (stopReason (step m)))) ∧
    (m.running = false →
      vcontGdb step bps fuel [(VContAct.step, none)] m =
        some (m, .ok (stopReason m))) ∧
    vcontMain step bps fuel [(VContAct.step, none)] m =
      some (step m, .ok (stopReason (step m))) := by
  refine ⟨fun h => ?_, fun h => ?_, ?_⟩ <;> simp [vcontGdb, vcontMain]
  · simp [h]
  · simp [h]

/-- C3 witness: on a halted machine the library handler's single-step
returns the machine unchanged. -/
theorem single_step_spec_witness :
    vcontGdb bumpHalt [] 3 [(VContAct.step, none)] ⟨7, [], false, 0⟩ =
      some (⟨7, [], false, 0⟩, .ok (stopReason ⟨7, [], false, 0⟩)) :=
  (single_step_spec bumpHalt [] 3 ⟨7, [], false, 0⟩).2.1 rfl

/-- C3 counterexample: the claim says single-step leaves the entire VM state
unchanged when the running flag is false, but the binary handler
(main.rs:151-153) steps a halted machine: starting halted at pc 5 it
returns a state with pc 6. -/
theorem single_step_unguarded_cex :
    (⟨5, [], false, 0⟩ : Machine).running = false ∧
    vcontMain bumpHalt [] 3 [(VContAct.step, none)] ⟨5, [], false, 0⟩ =
      some (⟨6, [], false, 0⟩, .ok (StopReason.exited 0 0)) ∧
    (⟨6, [], false, 0⟩ : Machine) ≠ (⟨5, [], false, 0⟩ : Machine) := by
  refine ⟨rfl, rfl, by decide⟩

/-! ### C9: empty continuation request -/

/-- C9: `vcont` indexes `request[0]` with no guarded fallback
(gdbserver.rs:147, main.rs:143), so on the empty request list neither
handler produces a stop reason or an error value — the embedded dispatch
yields `none` (the Rust code panics on the out-of-bounds index). -/
theorem vcont_empty_request (step : Machine → Machine) (bps : List Breakpoint)
    (fuel : Nat) (m : Machine) :
    vcontGdb step bps fuel [] m = none ∧ vcontMain step bps fuel [] m = none :=
  ⟨rfl, rfl⟩

/-! ### C1: continue -/

/-- C1 (amended): a terminating run of the continue operation first executes
one instruction unconditionally (the witness index `k` is at least 1, with no
condition on the starting state, so also when the pc sits on a breakpoint)
and then steps while the loop condition holds, returning the first state
falsifying it, with `Signal(5)` when that state is still running and
`Exited(0, exit_code mod 256)` otherwise.  In the library handler
(gdbserver.rs:149-161) the loop condition is "not at a breakpoint AND the
running flag is true", as the claim states; in the binary handler
(main.rs:145-150) it is "not at a breakpoint" alone, so that handler only
ever stops on a breakpoint, regardless of the running flag. -/
theorem vcont_continue_spec (step : Machine → Machine) (bps : List Breakpoint)
    (fuel : Nat) (m m' : Machine) (r : Except GdbError StopReason) :
    (vcontGdb step bps fuel [(VContAct.cont, none)] m = some (m', r) →
      (∃ k, 1 ≤ k ∧ m' = step^[k] m ∧
        (∀ j, 1 ≤ j → j < k →
          atBreakpoint bps (step^[j] m) = false ∧ (step^[j] m).running = true) ∧
        (atBreakpoint bps m' = true ∨ m'.running = false)) ∧
      r = .ok (if m'.running then StopReason.signal 5
               else StopReason.exited 0 ((m'.exitCode % 256).toNat))) ∧
    (vcontMain step bps fuel [(VContAct.cont, none)] m = some (m', r) →
      (∃ k, 1 ≤ k ∧ m' = step^[k] m ∧
        (∀ j, 1 ≤ j → j < k → atBreakpoint bps (step^[j] m) = false) ∧
        atBreakpoint bps m' = true) ∧
      r = .ok (if m'.running then StopReason.signal 5
               else StopReason.exited 0 ((m'.exitCode % 256).toNat))) := by
  constructor
  · intro h
    simp only [vcontGdb, Option.map_eq_some'] at h
    obtain ⟨m', hw, hpair⟩ := h
    cases hpair
    obtain ⟨k, hk, hiter, hall, hstop⟩ := whileStep_eq_some _ _ fuel (step m) m' hw
    refine ⟨⟨k + 1, by omega, ?_, ?_, ?_⟩, by simp [stopReason]⟩
    · rw [Function.iterate_succ_apply]; exact hiter
    · intro j h1 hj
      obtain ⟨j', rfl⟩ : ∃ j', j = j' + 1 := ⟨j - 1, by omega⟩
      have hc := hall j' (by omega)
      rw [Function.iterate_succ_apply]
      simpa [contCondGdb, Bool.and_eq_true, Bool.not_eq_true'] using hc
    · cases hab : atBreakpoint bps m' with
      | true => exact Or.inl rfl
      | false =>
        cases hr : m'.running with
        | false => exact Or.inr rfl
        | true => rw [contCondGdb, hab, hr] at hstop; simp at hstop
  · intro h
    simp only [vcontMain, Option.map_eq_some'] at h
    obtain ⟨m', hw, hpair⟩ := h
    cases hpair
    obtain ⟨k, hk, hiter, hall, hstop⟩ := whileStep_eq_some _ _ fuel (step m) m' hw
    refine ⟨⟨k + 1, by omega, ?_, ?_, ?_⟩, by simp [stopReason]⟩
    · rw [Function.iterate_succ_apply]; exact hiter
    · intro j h1 hj
      obtain ⟨j', rfl⟩ : ∃ j', j = j' + 1 := ⟨j - 1, by omega⟩
      have hc := hall j' (by omega)
      rw [Function.iterate_succ_apply]
      simpa [contCondMain, Bool.not_eq_true'] using hc
    · simpa [contCondMain] using hstop

/-- C1 witness: the library-handler characterization instantiated on a
concrete machine whose single step halts it, with no breakpoints. -/
theorem vcont_continue_spec_witness :
    (∃ k, 1 ≤ k ∧ (⟨1, [], false, 0⟩ : Machine) = bumpHalt^[k] ⟨0, [], true, 0⟩ ∧
      (∀ j, 1 ≤ j → j < k →
        atBreakpoint [] (bumpHalt^[j] ⟨0, [], true, 0⟩) = false ∧
          (bumpHalt^[j] ⟨0, [], true, 0⟩).running = true) ∧
      (atBreakpoint [] (⟨1, [], false, 0⟩ : Machine) = true ∨
        (⟨1, [], false, 0⟩ : Machine).running = false)) ∧
    (Except.ok (StopReason.exited 0 0) : Except GdbError StopReason) =
      .ok (if (⟨1, [], false, 0⟩ : Machine).running then StopReason.signal 5
           else StopReason.exited 0 (((⟨1, [], false, 0⟩ : Machine).exitCode % 256).toNat)) :=
  (vcont_continue_spec bumpHalt [] 5 ⟨0, [], true, 0⟩ ⟨1, [], false, 0⟩
    (.ok (StopReason.exited 0 0))).1 rfl

/-- C1 counterexample: in the binary handler (main.rs:145-150), starting
running at pc 0 with a breakpoint at 3 under a step that halts the machine
immediately, continue runs on to pc 3 — through states whose running flag is
false — so no stopping index `k` satisfies the claimed loop condition
"not at a breakpoint AND running": the claim is false of this vcont. -/
theorem vcont_continue_running_flag_cex :
    ∃ p, vcontMain bumpHalt [⟨3, 0⟩] 10 [(VContAct.cont, none)] ⟨0, [], true, 0⟩ = some p ∧
      ¬ (∃ k, 1 ≤ k ∧ p.1 = bumpHalt^[k] ⟨0, [], true, 0⟩ ∧
          (∀ j, 1 ≤ j → j < k →
            atBreakpoint [⟨3, 0⟩] (bumpHalt^[j] ⟨0, [], true, 0⟩) = false ∧
              (bumpHalt^[j] ⟨0, [], true, 0⟩).running = true) ∧
          (atBreakpoint [⟨3, 0⟩] p.1 = true ∨ p.1.running = false)) := by
  refine ⟨(⟨3, [], false, 0⟩, .ok (StopReason.exited 0 0)), rfl, ?_⟩
  rintro ⟨k, hk1, hiter, hall, -⟩
  have hpc : (3 : Nat) = 0 + k := by
    simpa [bumpHalt_iterate_pc] using congrArg Machine.pc hiter
  have h1 := (hall 1 (by omega) (by omega)).2
  simp [bumpHalt] at h1

/-! ### C2: range step -/

/-- C2 (amended): a terminating run of the range-step operation executes one
instruction unconditionally (also when the pc starts outside `[lo, hi)`:
the index `k` is at least 1 with no condition on the starting state) and
then steps while the loop condition holds, returning the first state
falsifying it.  In the library handler (gdbserver.rs:172-189) the loop
condition is "`lo ≤ pc < hi` AND not at a breakpoint AND running", as the
claim states; in the binary handler (main.rs:154-162) the running conjunct
is absent, so only leaving the range or hitting a breakpoint stops it. -/
theorem vcont_range_step_spec (step : Machine → Machine) (bps : List Breakpoint)
    (lo hi fuel : Nat) (m m' : Machine) (r : Except GdbError StopReason) :
    (vcontGdb step bps fuel [(VContAct.rangeStep lo hi, none)] m = some (m', r) →
      (∃ k, 1 ≤ k ∧ m' = step^[k] m ∧
        (∀ j, 1 ≤ j → j < k →
          lo ≤ (step^[j] m).pc ∧ ((step^[j] m).pc < hi ∧
            (atBreakpoint bps (step^[j] m) = false ∧ (step^[j] m).running = true))) ∧
        (¬(lo ≤ m'.pc ∧ m'.pc < hi) ∨ atBreakpoint bps m' = true ∨
          m'.running = false)) ∧
      r = .ok (if m'.running then StopReason.signal 5
               else StopReason.exited 0 ((m'.exitCode % 256).toNat))) ∧
    (vcontMain step bps fuel [(VContAct.rangeStep lo hi, none)] m = some (m', r) →
      (∃ k, 1 ≤ k ∧ m' = step^[k] m ∧
        (∀ j, 1 ≤ j → j < k →
          lo ≤ (step^[j] m).pc ∧ ((step^[j] m).pc < hi ∧
            atBreakpoint bps (step^[j] m) = false)) ∧
        (¬(lo ≤ m'.pc ∧ m'.pc < hi) ∨ atBreakpoint bps m' = true)) ∧
      r = .ok (if m'.running then StopReason.signal 5
               else StopReason.exited 0 ((m'.exitCode % 256).toNat))) := by
  constructor
  · intro h
    simp only [vcontGdb, Option.map_eq_some'] at h
    obtain ⟨m', hw, hpair⟩ := h
    cases hpair
    obtain ⟨k, hk, hiter, hall, hstop⟩ := whileStep_eq_some _ _ fuel (step m) m' hw
    refine ⟨⟨k + 1, by omega, ?_, ?_, ?_⟩, by simp [stopReason]⟩
    · rw [Function.iterate_succ_apply]; exact hiter
    · intro j h1 hj
      obtain ⟨j', rfl⟩ : ∃ j', j = j' + 1 := ⟨j - 1, by omega⟩
      have hc := hall j' (by omega)
      rw [Function.iterate_succ_apply]
      simpa [rangeCondGdb, Bool.and_eq_true, Bool.not_eq_true',
        decide_eq_true_iff, and_assoc] using hc
    · by_cases h1 : lo ≤ m'.pc
      · by_cases h2 : m'.pc < hi
        · cases hab : atBreakpoint bps m' with
          | true => exact Or.inr (Or.inl rfl)
          | false =>
            cases hr : m'.running with
            | false => exact Or.inr (Or.inr rfl)
            | true =>
              rw [rangeCondGdb, hab, hr] at hstop
              simp [h1, h2] at hstop
        · exact Or.inl (fun hc => h2 hc.2)
      · exact Or.inl (fun hc => h1 hc.1)
  · intro h
    simp only [vcontMain, Option.map_eq_some'] at h
    obtain ⟨m', hw, hpair⟩ := h
    cases hpair
    obtain ⟨k, hk, hiter, hall, hstop⟩ := whileStep_eq_some _ _ fuel (step m) m' hw
    refine ⟨⟨k + 1, by omega, ?_, ?_, ?_⟩, by simp [stopReason]⟩
    · rw [Function.iterate_succ_apply]; exact hiter
    · intro j h1 hj
      obtain ⟨j', rfl⟩ : ∃ j', j = j' + 1 := ⟨j - 1, by omega⟩
      have hc := hall j' (by omega)
      rw [Function.iterate_succ_apply]
      simpa [rangeCondMain, Bool.and_eq_true, Bool.not_eq_true',
        decide_eq_true_iff, and_assoc] using hc
    · by_cases h1 : lo ≤ m'.pc
      · by_cases h2 : m'.pc < hi
        · cases hab : atBreakpoint bps m' with
          | true => exact Or.inr rfl
          | false =>
            rw [rangeCondMain, hab] at hstop
            simp [h1, h2] at hstop
        · exact Or.inl (fun hc => h2 hc.2)
      · exact Or.inl (fun hc => h1 hc.1)

/-- C2 witness: the library-handler characterization instantiated on a
concrete machine whose single step halts it inside the range `[0, 100)`. -/
theorem vcont_range_step_spec_witness :
    (∃ k, 1 ≤ k ∧ (⟨1, [], false, 0⟩ : Machine) = bumpHalt^[k] ⟨0, [], true, 0⟩ ∧
      (∀ j, 1 ≤ j → j < k →
        0 ≤ (bumpHalt^[j] (⟨0, [], true, 0⟩ : Machine)).pc ∧
          ((bumpHalt^[j] (⟨0, [], true, 0⟩ : Machine)).pc < 100 ∧
            (atBreakpoint [] (bumpHalt^[j] (⟨0, [], true, 0⟩ : Machine)) = false ∧
              (bumpHalt^[j] (⟨0, [], true, 0⟩ : Machine)).running = true))) ∧
      (¬(0 ≤ (⟨1, [], false, 0⟩ : Machine).pc ∧ (⟨1, [], false, 0⟩ : Machine).pc < 100) ∨
        atBreakpoint [] (⟨1, [], false, 0⟩ : Machine) = true ∨
        (⟨1, [], false, 0⟩ : Machine).running = false)) ∧
    (Except.ok (StopReason.exited 0 0) : Except GdbError StopReason) =
      .ok (if (⟨1, [], false, 0⟩ : Machine).running then StopReason.signal 5
           else StopReason.exited 0 (((⟨1, [], false, 0⟩ : Machine).exitCode % 256).toNat)) :=
  (vcont_range_step_spec bumpHalt [] 0 100 5 ⟨0, [], true, 0⟩ ⟨1, [], false, 0⟩
    (.ok (StopReason.exited 0 0))).1 rfl

/-- C2 counterexample: in the binary handler (main.rs:154-162), range-step
over `[0, 3)` with no breakpoints and a step that halts the machine
immediately runs on to pc 3 — through states whose running flag is false —
so no stopping index `k` satisfies the claimed loop condition, which
includes "the VM's running flag is true": the claim is false of this vcont. -/
theorem vcont_range_step_running_flag_cex :
    ∃ p, vcontMain bumpHalt [] 10 [(VContAct.rangeStep 0 3, none)] ⟨0, [], true, 0⟩ = some p ∧
      ¬ (∃ k, 1 ≤ k ∧ p.1 = bumpHalt^[k] ⟨0, [], true, 0⟩ ∧
          (∀ j, 1 ≤ j → j < k →
            0 ≤ (bumpHalt^[j] (⟨0, [], true, 0⟩ : Machine)).pc ∧
              ((bumpHalt^[j] (⟨0, [], true, 0⟩ : Machine)).pc < 3 ∧
                (atBreakpoint [] (bumpHalt^[j] (⟨0, [], true, 0⟩ : Machine)) = false ∧
                  (bumpHalt^[j] (⟨0, [], true, 0⟩ : Machine)).running = true))) ∧
          (¬(0 ≤ p.1.pc ∧ p.1.pc < 3) ∨ atBreakpoint [] p.1 = true ∨
            p.1.running = false)) := by
  refine ⟨(⟨3, [], false, 0⟩, .ok (StopReason.exited 0 0)), rfl, ?_⟩
  rintro ⟨k, hk1, hiter, hall, -⟩
  have hpc : (3 : Nat) = 0 + k := by
    simpa [bumpHalt_iterate_pc] using congrArg Machine.pc hiter
  have h1 := (hall 1 (by omega) (by omega)).2.2.2
  simp [bumpHalt] at h1

/-! ### C4, C5: register access -/

theorem leBytes_length : ∀ (n v : Nat), (leBytes n v).length = n := by
  intro n
  induction n with
  | zero => intro v; rfl
  | succ n' ih => intro v; simp [leBytes, ih]

theorem leRead_leBytes : ∀ (n v : Nat), leRead (leBytes n v) = v % 256 ^ n := by
  intro n
  induction n with
  | zero => intro v; simp [leBytes, leRead, Nat.mod_one]
  | succ n' ih =>
    intro v
    rw [leBytes, leRead, ih]
    rw [pow_succ, Nat.mul_comm (256 ^ n') 256, Nat.mod_mul]

theorem getD_set_self : ∀ (l : List Nat) (i v : Nat), i < l.length →
    ((l.set i v)[i]?).getD 0 = v := by
  intro l
  induction l with
  | nil => intro i v h; simp at h
  | cons a t ih =>
    intro i v h
    cases i with
    | zero => simp
    | succ i' => simpa using ih i' v (by simpa using h)

/-- C4: for every general register index below 32 and every 64-bit value,
writing the value's 8-byte little-endian encoding and reading the register
back returns that encoding (so the value round-trips unchanged), and a
one-byte payload `[0x2A]` zero-extends: the read returns the 8-byte
little-endian encoding of 0x2A.  Hypotheses are the u64 range of the value
and the VM invariant that the register file has 32 entries. -/
theorem write_read_register_roundtrip (m : Machine) (i v : Nat)
    (hlen : m.regs.length = 32) (hi : i < 32) (hv : v < 2 ^ 64) :
    writeRegister m i (formatRegisterValue v) =
      .ok { m with regs := m.regs.set i v } ∧
    readRegister { m with regs := m.regs.set i v } i =
      .ok (formatRegisterValue v) ∧
    writeRegister m i [42] = .ok { m with regs := m.regs.set i 42 } ∧
    readRegister { m with regs := m.regs.set i 42 } i =
      .ok (formatRegisterValue 42) := by
  have h256 : (256 : Nat) ^ 8 = 2 ^ 64 := by norm_num
  have hmod : v % 256 ^ 8 = v := by rw [h256]; exact Nat.mod_eq_of_lt hv
  have hmodlit : v % 18446744073709551616 = v := by omega
  refine ⟨?_, ?_, ?_, ?_⟩
  · simp [writeRegister, formatRegisterValue, leBytes_length,
      RISCV_GENERAL_REGISTER_NUMBER, hi, leRead_leBytes, hmodlit]
  · simp [readRegister, RISCV_GENERAL_REGISTER_NUMBER, hi,
      getD_set_self m.regs i v (by omega)]
  · simp [writeRegister, RISCV_GENERAL_REGISTER_NUMBER, hi, leRead]
  · simp [readRegister, RISCV_GENERAL_REGISTER_NUMBER, hi,
      getD_set_self m.regs i 42 (by omega)]

/-- C4 witness: the round trip at register 5 with value `2^63` and with the
single-byte payload `[0x2A]`. -/
theorem write_read_register_roundtrip_witness :
    writeRegister ⟨0, List.replicate 32 0, true, 0⟩ 5
        (formatRegisterValue (2 ^ 63)) =
      .ok { (⟨0, List.replicate 32 0, true, 0⟩ : Machine) with
              regs := (List.replicate 32 0).set 5 (2 ^ 63) } ∧
    readRegister { (⟨0, List.replicate 32 0, true, 0⟩ : Machine) with
                     regs := (List.replicate 32 0).set 5 (2 ^ 63) } 5 =
      .ok (formatRegisterValue (2 ^ 63)) ∧
    writeRegister ⟨0, List.replicate 32 0, true, 0⟩ 5 [42] =
      .ok { (⟨0, List.replicate 32 0, true, 0⟩ : Machine) with
              regs := (List.replicate 32 0).set 5 42 } ∧
    readRegister { (⟨0, List.replicate 32 0, true, 0⟩ : Machine) with
                     regs := (List.replicate 32 0).set 5 42 } 5 =
      .ok (formatRegisterValue 42) :=
  write_read_register_roundtrip ⟨0, List.replicate 32 0, true, 0⟩ 5 (2 ^ 63)
    (by decide) (by decide) (by norm_num)

/-- C5 (amended): `read_register` with index 32 returns the program counter
and with a larger index fails with `Error(1)`; `write_register` with a
payload longer than 8 bytes fails with `Error(2)` before touching any state
(the embedded function returns no machine on the error path, matching the
Rust early return ahead of any mutation); and `write_register` with an index
beyond 32 also fails with `Error(2)` — the SAME coded error as the oversized
payload, not a distinct one as the claim asserts (gdbserver.rs:77 and
gdbserver.rs:93 both build `Error(2)`; only `read_register` uses the
distinct `Error(1)`). -/
theorem register_index_error_codes (m : Machine) (i : Nat) (bs : List Nat) :
    readRegister m 32 = .ok (formatRegisterValue m.pc) ∧
    (32 < i → readRegister m i = .error (GdbError.err 1)) ∧
    (8 < bs.length → writeRegister m i bs = .error (GdbError.err 2)) ∧
    (32 < i → bs.length ≤ 8 → writeRegister m i bs = .error (GdbError.err 2)) := by
  refine ⟨?_, fun h => ?_, fun h => ?_, fun h h8 => ?_⟩
  · simp [readRegister, RISCV_GENERAL_REGISTER_NUMBER]
  · simp only [readRegister, RISCV_GENERAL_REGISTER_NUMBER]
    rw [if_neg (by omega), if_neg (by omega)]
  · simp only [writeRegister]
    rw [if_pos (by omega)]
  · simp only [writeRegister, RISCV_GENERAL_REGISTER_NUMBER]
    rw [if_neg (by omega), if_neg (by omega), if_neg (by omega)]

/-- C5 witness: the amended statement at pc 9, index 40, and a 9-byte
payload. -/
theorem register_index_error_codes_witness :
    readRegister ⟨9, [], true, 0⟩ 32 = .ok (formatRegisterValue 9) ∧
    readRegister ⟨9, [], true, 0⟩ 40 = .error (GdbError.err 1) ∧
    writeRegister ⟨9, [], true, 0⟩ 0 [0, 0, 0, 0, 0, 0, 0, 0, 0] =
      .error (GdbError.err 2) ∧
    writeRegister ⟨9, [], true, 0⟩ 40 [] = .error (GdbError.err 2) :=
  ⟨(register_index_error_codes ⟨9, [], true, 0⟩ 40 []).1,
   (register_index_error_codes ⟨9, [], true, 0⟩ 40 []).2.1 (by omega),
   (register_index_error_codes ⟨9, [], true, 0⟩ 0
      [0, 0, 0, 0, 0, 0, 0, 0, 0]).2.2.1 (by decide),
   (register_index_error_codes ⟨9, [], true, 0⟩ 40 []).2.2.2 (by omega) (by decide)⟩

/-- C5 counterexample: the claim calls write_register's invalid-register
error "a distinct error from OversizedValue", but an out-of-range index (40)
and an oversized 9-byte payload produce the very same error value
`Error(2)`. -/
theorem register_error_code_collision_cex :
    ∃ e1 e2 : GdbError,
      writeRegister ⟨0, List.replicate 32 0, true, 0⟩ 40 [] = .error e1 ∧
      writeRegister ⟨0, List.replicate 32 0, true, 0⟩ 0
          [0, 0, 0, 0, 0, 0, 0, 0, 0] = .error e2 ∧
      e1 = e2 :=
  ⟨GdbError.err 2, GdbError.err 2, rfl, rfl, rfl⟩

/-! ### C6: breakpoint removal; C7, C8: fstat syscall bridge -/

/-- C6 (amended): `remove_software_breakpoint` retains exactly the entries
that differ from the given breakpoint under the crate's full-record equality
(address AND kind), and it is a total operation (no error when nothing
matches).  Consequently the address-membership test can remain true after a
removal: it stays true exactly when some stored entry shares the address but
is not equal to the removed breakpoint. -/
theorem remove_breakpoint_spec (bps : List Breakpoint) (b : Breakpoint) :
    (∀ x : Breakpoint, x ∈ removeSoftwareBreakpoint bps b ↔ (x ∈ bps ∧ x ≠ b)) ∧
    (containsAddr (removeSoftwareBreakpoint bps b) b.addr = true ↔
      ∃ x : Breakpoint, x ∈ bps ∧ x.addr = b.addr ∧ x ≠ b) := by
  constructor
  · intro x
    simp [removeSoftwareBreakpoint, List.mem_filter, bne_iff_ne]
  · constructor
    · intro h
      simp only [containsAddr, List.any_eq_true, beq_iff_eq] at h
      obtain ⟨x, hx, hxa⟩ := h
      rw [removeSoftwareBreakpoint, List.mem_filter] at hx
      exact ⟨x, hx.1, hxa, by simpa [bne_iff_ne] using hx.2⟩
    · rintro ⟨x, hx, hxa, hxb⟩
      simp only [containsAddr, List.any_eq_true, beq_iff_eq]
      refine ⟨x, ?_, hxa⟩
      rw [removeSoftwareBreakpoint, List.mem_filter]
      exact ⟨hx, by simpa [bne_iff_ne]⟩

/-- C6 counterexample: the claim says removal deletes every entry whose
address matches "regardless of any other attribute", but removing
`{addr := 100, kind := 0}` from a set holding `{addr := 100, kind := 1}`
(same address, different kind) deletes nothing, and the membership test for
address 100 is still true afterwards. -/
theorem remove_breakpoint_kind_cex :
    removeSoftwareBreakpoint [⟨100, 1⟩] ⟨100, 0⟩ = [⟨100, 1⟩] ∧
    containsAddr (removeSoftwareBreakpoint [⟨100, 1⟩] ⟨100, 0⟩) 100 = true :=
  ⟨rfl, rfl⟩

/-- The serialized `AbiStat` record is 128 bytes, the `repr(C)` size of the
Rust struct (`size_of::<AbiStat>()`). -/
theorem abiStatBytes_length (a : AbiStat) : (abiStatBytes a).length = 128 := by
  simp [abiStatBytes, leBytes_length]

/-- C7: when the host file-status query succeeds, the record serialized is
`abiStatBytes` of the field-by-field translation `mkAbiStat` — the
little-endian encodings of the declared fields in declared order and widths,
128 bytes in total, with the reserved/padding fields zero — it is stored at
the guest address held in A1, the return register A0 is set to zero, and a
failing guest-memory store propagates its error to the VM's caller
(stdio.rs:46-68, the `?` on `store_bytes`). -/
theorem fstat_success_spec {mu eps : Type} (hostFstat : Int → Except Nat HostStat)
    (storeBytes : mu → Nat → List Nat → Except eps mu)
    (m : SysMachine mu) (s : HostStat)
    (hhost : hostFstat (i32ofBits (m.regs.getD A0 0)) = .ok s) :
    (abiStatBytes (mkAbiStat s)).length = 128 ∧
    (mkAbiStat s).pad1 = 0 ∧ (mkAbiStat s).pad2 = 0 ∧
    (mkAbiStat s).unused4 = 0 ∧ (mkAbiStat s).unused5 = 0 ∧
    (∀ mem', storeBytes m.mem (m.regs.getD A1 0) (abiStatBytes (mkAbiStat s)) = .ok mem' →
      fstatSys hostFstat storeBytes m = .ok ⟨m.regs.set A0 0, mem'⟩) ∧
    (∀ e, storeBytes m.mem (m.regs.getD A1 0) (abiStatBytes (mkAbiStat s)) = .error e →
      fstatSys hostFstat storeBytes m = .error e) := by
  refine ⟨abiStatBytes_length _, rfl, rfl, rfl, rfl, fun mem' hst => ?_, fun e hst => ?_⟩
  · simp only [fstatSys, hhost, hst]
  · simp only [fstatSys, hhost, hst]

/-- C8: when the host file-status query fails, `fstat` sets A0 to the
all-ones 64-bit pattern (`from_i8(-1)`), leaves guest memory untouched (the
result carries `m.mem` unchanged and `store_bytes` is never reached), and
returns `Ok` — no error surfaces to the VM's caller — while `ecall` reports
the call handled for syscall number 80 and returns `Ok(false)` with the
machine unmodified for every other syscall number (stdio.rs:38-45, 77-83). -/
theorem fstat_failure_ecall_spec {mu eps : Type} (hostFstat : Int → Except Nat HostStat)
    (storeBytes : mu → Nat → List Nat → Except eps mu) (m : SysMachine mu) :
    (∀ e, hostFstat (i32ofBits (m.regs.getD A0 0)) = .error e →
      fstatSys hostFstat storeBytes m =
          .ok { m with regs := m.regs.set A0 (2 ^ 64 - 1) } ∧
      (m.regs.getD A7 0 = 80 →
        ecallSys hostFstat storeBytes m =
          .ok (true, { m with regs := m.regs.set A0 (2 ^ 64 - 1) }))) ∧
    (m.regs.getD A7 0 ≠ 80 → ecallSys hostFstat storeBytes m = .ok (false, m)) := by
  refine ⟨fun e he => ?_, fun h80 => ?_⟩
  · have hf : fstatSys hostFstat storeBytes m =
        .ok { m with regs := m.regs.set A0 (2 ^ 64 - 1) } := by
      simp only [fstatSys, he]
    refine ⟨hf, fun h7 => ?_⟩
    simp only [ecallSys, if_pos h7, hf]
  · simp only [ecallSys, if_neg h80]

/-- A concrete host file-status result for witnesses. -/
def demoStat : HostStat := ⟨1, 2, 33188, 1, 1000, 1000, 0, 1234, 4096, 8, 10, 11, 12, 13, 14, 15⟩

/-- A register file with fd 3 in A0, buffer address 4096 in A1 and syscall
number 80 in A7. -/
def demoRegs : List Nat := [0, 0, 0, 0, 0, 0, 0, 0, 0, 0, 3, 4096, 0, 0, 0, 0, 0, 80]

/-- Same register file with the unmodeled syscall number 81 in A7. -/
def demoRegs2 : List Nat := [0, 0, 0, 0, 0, 0, 0, 0, 0, 0, 3, 4096, 0, 0, 0, 0, 0, 81]

/-- A guest memory that records every bulk store and always succeeds. -/
def logStore (mem : List (Nat × List Nat)) (addr : Nat) (b : List Nat) :
    Except Unit (List (Nat × List Nat)) := .ok ((addr, b) :: mem)

/-- A guest memory whose bulk store always fails. -/
def failStore (_ : List (Nat × List Nat)) (_ : Nat) (_ : List Nat) :
    Except Unit (List (Nat × List Nat)) := .error ()

/-- C7 witness: the success path evaluated with a concrete host result, a
recording store and a failing store. -/
theorem fstat_success_spec_witness :
    (abiStatBytes (mkAbiStat demoStat)).length = 128 ∧
    fstatSys (fun _ => .ok demoStat) logStore ⟨demoRegs, []⟩ =
      .ok ⟨demoRegs.set A0 0, [(4096, abiStatBytes (mkAbiStat demoStat))]⟩ ∧
    fstatSys (fun _ => .ok demoStat) failStore ⟨demoRegs, []⟩ = .error () :=
  ⟨(fstat_success_spec (fun _ => .ok demoStat) logStore ⟨demoRegs, []⟩ demoStat rfl).1,
   (fstat_success_spec (fun _ => .ok demoStat) logStore ⟨demoRegs, []⟩ demoStat
      rfl).2.2.2.2.2.1 [(4096, abiStatBytes (mkAbiStat demoStat))] rfl,
   (fstat_success_spec (fun _ => .ok demoStat) failStore ⟨demoRegs, []⟩ demoStat
      rfl).2.2.2.2.2.2 () rfl⟩

/-- C8 witness: the host-failure path and the unmodeled-syscall path
evaluated on concrete register files. -/
theorem fstat_failure_ecall_spec_witness :
    fstatSys (fun _ => .error 9) logStore ⟨demoRegs, []⟩ =
      .ok ⟨demoRegs.set A0 (2 ^ 64 - 1), []⟩ ∧
    ecallSys (fun _ => .error 9) logStore ⟨demoRegs, []⟩ =
      .ok (true, ⟨demoRegs.set A0 (2 ^ 64 - 1), []⟩) ∧
    ecallSys (fun _ => .error 9) logStore ⟨demoRegs2, []⟩ = .ok (false, ⟨demoRegs2, []⟩) :=
  ⟨((fstat_failure_ecall_spec (fun _ => .error 9) logStore ⟨demoRegs, []⟩).1 9 rfl).1,
   ((fstat_failure_ecall_spec (fun _ => .error 9) logStore ⟨demoRegs, []⟩).1 9 rfl).2 rfl,
   (fstat_failure_ecall_spec (fun _ => .error 9) logStore ⟨demoRegs2, []⟩).2 (by decide)⟩

/-! ### C10: read_memory end-address overflow -/

/-- A run of `read_memory`'s loop over addresses whose loads all succeed
collects the loaded bytes in order. -/
theorem loadRange_ok (load8 : Nat → Except Unit Nat) (f : Nat → Nat) :
    ∀ l : List Nat, (∀ a, a ∈ l → load8 a = .ok (f a)) →
    loadRange load8 l = .ok (l.map (fun a => f a % 256)) := by
  intro l
  induction l with
  | nil => intro _; rfl
  | cons a rest ih =>
    intro h
    have ha := h a (List.mem_cons_self a rest)
    have hrest := ih (fun x hx => h x (List.mem_cons_of_mem a hx))
    simp [loadRange, ha, hrest]

/-- C10 (amended): `read_memory` computes its end address with unchecked
u64 addition.  When `address + length` is strictly below `2^64` it is total
and returns exactly `length` bytes, byte `i` loaded from `address + i`;
when the sum reaches or exceeds `2^64` the wrapped end bound makes the
iteration range empty, so the call returns zero bytes and produces no
MemoryFault for the requested addresses.  (The claim's precondition
"does not exceed `2^64`" admits the sum `2^64` itself, where the code
already wraps and returns no bytes — see the counterexample.) -/
theorem read_memory_spec (load8 : Nat → Except Unit Nat) (address length : Nat)
    (f : Nat → Nat) (haddr : address < 2 ^ 64) (hlength : length < 2 ^ 64) :
    (address + length < 2 ^ 64 →
      (∀ i, i < length → load8 (address + i) = .ok (f (address + i))) →
      readMemory load8 address length =
        .ok ((List.range' address length).map (fun a => f a % 256)) ∧
      ((List.range' address length).map (fun a => f a % 256)).length = length) ∧
    (2 ^ 64 ≤ address + length → readMemory load8 address length = .ok []) := by
  constructor
  · intro hlt hload
    have hmod : (address + length) % U64MOD = address + length :=
      Nat.mod_eq_of_lt (by simpa [U64MOD] using hlt)
    constructor
    · rw [readMemory, hmod, Nat.add_sub_cancel_left]
      apply loadRange_ok
      intro a ha
      rw [List.mem_range'_1] at ha
      have := hload (a - address) (by omega)
      have haa : address + (a - address) = a := by omega
      rwa [haa] at this
    · simp
  · intro hge
    have h2 : (address + length) % U64MOD - address = 0 := by
      have h1 : (address + length) % U64MOD = address + length - 2 ^ 64 := by
        rw [U64MOD, Nat.mod_eq_sub_mod hge]
        exact Nat.mod_eq_of_lt (by omega)
      rw [h1]
      omega
    rw [readMemory, h2]
    rfl

/-- C10 witness: a 3-byte read at address 100 with identity loads, and a
wrapped read starting at `2^64 - 1`. -/
theorem read_memory_spec_witness :
    readMemory (fun a => .ok a) 100 3 = .ok [100, 101, 102] ∧
    readMemory (fun a => .ok a) (2 ^ 64 - 1) 5 = .ok [] :=
  ⟨((read_memory_spec (fun a => .ok a) 100 3 (fun a => a) (by norm_num)
      (by norm_num)).1 (by norm_num) (fun i _ => rfl)).1,
   (read_memory_spec (fun a => .ok a) (2 ^ 64 - 1) 5 (fun a => a) (by norm_num)
      (by norm_num)).2 (by norm_num)⟩

/-- C10 counterexample: at `address = 2^64 - 1`, `length = 1` the claim's
precondition `address + length ≤ 2^64` holds and every load succeeds, yet
the code returns 0 bytes rather than the claimed `length = 1`: the u64 sum
wraps to 0 and the iteration range is empty. -/
theorem read_memory_boundary_cex :
    (2 ^ 64 - 1) + 1 ≤ 2 ^ 64 ∧
    readMemory (fun _ => .ok 0) (2 ^ 64 - 1) 1 = .ok [] ∧
    ([] : List Nat).length ≠ 1 := by
  refine ⟨by norm_num, by rfl, by decide⟩
